import Mathlib

/-!
Verification of the evaluation orchestration and traffic-light scoring
engine of the dspy-llm-evaluator repository.

The development shallowly embeds the Python sources:
  * `evaluator/scoring.py`   — `TrafficLightScorer` (`score_to_status`,
    `compute_overall_status`, `compute_row_status`, `score_results`);
  * `evaluator/pipeline.py`  — `EvaluationPipeline.evaluate_single`;
  * `evaluator/metrics/*.py` — the `evaluate` entry points of the
    correctness, relevancy, rouge and toxicity metrics, with the external
    DSPy / Rouge collaborators modelled as parameters.

Python floats are modelled as `PFloat` (a rational or NaN, with NaN
incomparable), pandas rows as association lists from column names to cell
values, and Python exceptions as `Except`.
-/

namespace LLMEval

/-- A Python float as the scoring code uses it: either NaN (the missing
value a pandas numeric column holds when a metric contributed nothing for
a row) or an actual number, modelled as a rational. -/
inductive PFloat where
  | nan : PFloat
  | val : ℚ → PFloat
deriving DecidableEq

/-- Python `<` on floats: false whenever either operand is NaN. -/
def PFloat.lt : PFloat → PFloat → Bool
  | .val a, .val b => decide (a < b)
  | _, _ => false

/-- Python `>=` on floats: false whenever either operand is NaN. -/
def PFloat.ge : PFloat → PFloat → Bool
  | .val a, .val b => decide (b ≤ a)
  | _, _ => false

/-- A cell value of a result row: a float, a Python bool, a string, or a
list of strings (the `errors` cell). -/
inductive Value where
  | num : PFloat → Value
  | bool : Bool → Value
  | str : String → Value
  | strList : List String → Value
deriving DecidableEq

/-- Python truthiness of a cell value. NaN is truthy in Python. -/
def Value.truthy : Value → Bool
  | .num .nan => true
  | .num (.val q) => decide (q ≠ 0)
  | .bool b => b
  | .str s => s != ""
  | .strList l => l != []

/-- The float a cell contributes when the source passes it to
`score_to_status`. Python bools are numeric (`True == 1`, `False == 0`).
A string or list cell would raise `TypeError` inside `score_to_status`;
the theorems about scoring restrict score cells to numeric values, so the
NaN returned here for those cases is never relied upon. -/
def Value.toPFloat : Value → PFloat
  | .num f => f
  | .bool b => .val (if b then 1 else 0)
  | .str _ => .nan
  | .strList _ => .nan

/-- Python `s.endswith(sfx)`: `sfx` is a suffix of `s`. -/
def strEndsWith (s sfx : String) : Bool :=
  sfx.data.isSuffixOf s.data

/-- One scan step of Python `str.replace`: at each position, if the
remaining text starts with `pat` the occurrence is replaced by `rep` and
`pat.length` characters are skipped, otherwise one character is copied.
The fuel argument (instantiated with the string length, an upper bound on
the number of scan steps) only makes the recursion structural. -/
def replaceAux (pat rep : List Char) : Nat → List Char → List Char
  | _, [] => []
  | 0, l => l
  | Nat.succ fuel, c :: cs =>
    if pat.isPrefixOf (c :: cs) then
      rep ++ replaceAux pat rep fuel ((c :: cs).drop pat.length)
    else
      c :: replaceAux pat rep fuel cs

/-- Python `s.replace(pat, rep)` (for the non-empty patterns the source
uses, such as `"_score"`). -/
def pyReplace (s pat rep : String) : String :=
  String.mk (replaceAux pat.data rep.data s.data.length s.data)

/-- A pandas row (also a Python dict with insertion order): an ordered
association list from column names to cell values. -/
abbrev Row := List (String × Value)

/-- Look a column up in a row (first occurrence). -/
def Row.get : Row → String → Option Value
  | [], _ => none
  | p :: r, c => if p.1 = c then some p.2 else Row.get r c

/-- The column names of a row, in order. -/
def Row.cols (r : Row) : List String := r.map (·.1)

/-- Assign a column of a row, as `df[col] = ...` / `d[key] = ...` do:
overwrite in place when the column exists, append it otherwise. -/
def Row.setCol (r : Row) (c : String) (v : Value) : Row :=
  if c ∈ r.cols then r.map (fun p => if p.1 = c then (c, v) else p)
  else r ++ [(c, v)]

/-- The threshold configuration of `TrafficLightScorer.__init__`
(scoring.py, lines 22-41). -/
structure TrafficLightScorer where
  rouge_thresholds : ℚ × ℚ
  other_thresholds : ℚ × ℚ
  missing_eval_threshold : ℚ

/-- The constructor defaults: `(0.4, 0.5)`, `(0.4, 0.7)`, `0.05`. -/
def defaultScorer : TrafficLightScorer :=
  ⟨(2/5, 1/2), (2/5, 7/10), 1/20⟩

/-- `TrafficLightScorer.score_to_status` (scoring.py, lines 43-70). -/
def score_to_status (s : TrafficLightScorer) (score : PFloat)
    (metric_name : String) : String :=
  if metric_name = "toxicity" then
    if score.ge (.val 1) then "green" else "red"
  else
    let lu := if metric_name = "rouge" then s.rouge_thresholds
              else s.other_thresholds
    if score.lt (.val lu.1) then "red"
    else if score.lt (.val lu.2) then "yellow"
    else "green"

/-- `TrafficLightScorer.compute_overall_status` (scoring.py, lines
72-112). The statuses list holds whatever values Python would pass;
`"red" in statuses` is membership of the string value. -/
def compute_overall_status (s : TrafficLightScorer) (statuses : List Value)
    (missing_evals total_evals : ℕ) : String :=
  if statuses = [] then "red"
  else if 0 < total_evals ∧
      s.missing_eval_threshold < (missing_evals : ℚ) / (total_evals : ℚ) then
    if Value.str "red" ∈ statuses then "red" else "yellow"
  else if Value.str "red" ∈ statuses then "red"
  else if Value.str "yellow" ∈ statuses then "yellow"
  else "green"

/-- The per-metric status values of a row: the cells of every column whose
name ends in `"_status"`, in column order. -/
def statusValues (row : Row) : List Value :=
  (row.cols.filter (fun c => strEndsWith c "_status")).filterMap row.get

/-- `TrafficLightScorer.compute_row_status` (scoring.py, lines 152-173):
collect the `_status` cells; veto to `"red"` when `toxicity_is_toxic` is
present and truthy; otherwise combine with default (zero) missing/total
counts. -/
def compute_row_status (s : TrafficLightScorer) (row : Row) : String :=
  match row.get "toxicity_is_toxic" with
  | some v => if v.truthy then "red" else compute_overall_status s (statusValues row) 0 0
  | none => compute_overall_status s (statusValues row) 0 0

/-- The body of the column loop of `score_results` (scoring.py, lines
128-136) for one column: when the name ends in `"_score"`, write the
derived `{metric}_status` column. -/
def scoreStep (s : TrafficLightScorer) (r : Row) (col : String) : Row :=
  if strEndsWith col "_score" then
    let metric_name := pyReplace col "_score" ""
    match r.get col with
    | some v =>
        r.setCol (metric_name ++ "_status")
          (.str (score_to_status s v.toPFloat metric_name))
    | none => r
  else r

/-- The column loop of `score_results` over a snapshot of the column
names (pandas iterates the `df.columns` index taken at loop entry). -/
def passCols (s : TrafficLightScorer) (cs : List String) (r : Row) : Row :=
  cs.foldl (scoreStep s) r

/-- The toxicity block of `score_results` (scoring.py, lines 138-143):
when a `toxicity_is_toxic` column exists, derive `toxicity_status` from
its truthiness. -/
def toxPass (r : Row) : Row :=
  match r.get "toxicity_is_toxic" with
  | some v => r.setCol "toxicity_status" (.str (if v.truthy then "red" else "green"))
  | none => r

/-- `TrafficLightScorer.score_results` (scoring.py, lines 114-150)
restricted to one row: derive the per-metric status columns, the toxicity
status column, then the `overall_status` column. -/
def score_results_row (s : TrafficLightScorer) (r : Row) : Row :=
  let r1 := passCols s r.cols r
  let r2 := toxPass r1
  r2.setCol "overall_status" (.str (compute_row_status s r2))

/-- `TrafficLightScorer.score_results` on a table: pandas applies the
column derivations elementwise, so on rows sharing the table's columns it
acts row by row. -/
def score_results (s : TrafficLightScorer) (df : List Row) : List Row :=
  df.map (score_results_row s)

/-- Every cell of a `_score` column is a float. (A non-numeric score cell
would raise `TypeError` inside the source's `score_to_status`.) -/
def numericScores (r : Row) : Bool :=
  r.all (fun p => !(strEndsWith p.1 "_score") ||
    (match p.2 with | .num _ => true | _ => false))

/-- The reference reading of claim C2, written from the spec's words
(spec §4.3): empty statuses give red; too much missing data caps the
result at yellow; otherwise the pessimistic weakest-link combination. -/
def spec_overall_status (s : TrafficLightScorer) (statuses : List String)
    (missing_evals total_evals : ℕ) : String :=
  if statuses = [] then "red"
  else if 0 < total_evals ∧
      s.missing_eval_threshold < (missing_evals : ℚ) / (total_evals : ℚ) then
    if "red" ∈ statuses then "red" else "yellow"
  else if "red" ∈ statuses then "red"
  else if "yellow" ∈ statuses then "yellow"
  else "green"

/-- The reference reading of claim C3, written from the spec's words
(spec §4.3), over real-valued scores: toxicity is binary green/red at
1.0; any other metric compares against its threshold pair. -/
def spec_score_to_status (s : TrafficLightScorer) (score : ℚ)
    (metric_name : String) : String :=
  if metric_name = "toxicity" then
    if 1 ≤ score then "green" else "red"
  else
    let lu := if metric_name = "rouge" then s.rouge_thresholds
              else s.other_thresholds
    if score < lu.1 then "red"
    else if lu.1 ≤ score ∧ score < lu.2 then "yellow"
    else "green"

/-- One configured metric as `evaluate_single` sees it for one record: its
name together with the outcome of its `evaluate` call — either the
returned result mapping, or the message of an escaped exception. -/
structure MetricRun where
  name : String
  result : Except String (List (String × Value))

/-- One iteration of the metric loop of `EvaluationPipeline.evaluate_single`
(pipeline.py, lines 51-60): merge a returned mapping into the row under
the `{metric_name}_{key}` prefix, or append `"{metric_name}: {message}"`
to the error list. -/
def evalStep (acc : Row × List String) (m : MetricRun) : Row × List String :=
  match m.result with
  | .ok kvs =>
      (kvs.foldl (fun r kv => r.setCol (m.name ++ "_" ++ kv.1) kv.2) acc.1, acc.2)
  | .error msg => (acc.1, acc.2 ++ [m.name ++ ": " ++ msg])

/-- `EvaluationPipeline.evaluate_single` (pipeline.py, lines 31-66): run
every metric, then surface the error list as an `errors` field only when
it is non-empty. -/
def evaluate_single (metrics : List MetricRun) : Row :=
  let p := metrics.foldl evalStep ([], [])
  if p.2 = [] then p.1 else p.1.setCol "errors" (.strList p.2)

/-- The error strings `evaluate_single` accumulates: one
`"{metric_name}: {message}"` entry per failing metric, in metric order. -/
def failMsgs (metrics : List MetricRun) : List String :=
  metrics.filterMap (fun m => match m.result with
    | .error msg => some (m.name ++ ": " ++ msg)
    | .ok _ => none)

/-- The sublist of the metrics whose `evaluate` call returned normally. -/
def okMetrics (metrics : List MetricRun) : List MetricRun :=
  metrics.filter (fun m => match m.result with | .ok _ => true | .error _ => false)

/-- The result row of `evaluate_single` before the `errors` field is
attached. -/
def resultRow (metrics : List MetricRun) : Row :=
  (metrics.foldl evalStep ([], [])).1

/-- The ASCII whitespace characters Python's `str.strip` removes. -/
def isPyWS (c : Char) : Bool :=
  c == ' ' || c == '\t' || c == '\n' || c == '\r' || c == '\x0b' || c == '\x0c'

/-- Negated truthiness of `s.strip()`: Python's `not s.strip()` holds
exactly when every character of `s` is whitespace (in particular when `s`
is empty). -/
def blank (s : String) : Bool := s.data.all isPyWS

/-- Python truthiness of the optional `reference` argument: `None` and the
empty string are falsy, every other string is truthy. -/
def refTruthy : Option String → Bool
  | none => false
  | some s => s != ""

/-- `Metric.validate_inputs` (metrics/base.py, lines 47-68): a blank
question raises `ValueError`; the checks on `response` and `reference`
are `isinstance` checks, vacuous under this typed embedding. -/
def validate_inputs (question response : String) (reference : Option String) :
    Except String Unit :=
  if blank question then .error "Question must be a non-empty string" else .ok ()

/-- `CorrectnessMetric.evaluate` (metrics/correctness.py, lines 78-110).
The external DSPy program call is modelled by the `program` parameter:
either the mapping it returns or the message of the exception it
raises. -/
def correctness_evaluate (program : Except String (List (String × Value)))
    (question response : String) (reference : Option String) :
    Except String (List (String × Value)) :=
  match validate_inputs question response reference with
  | .error e => .error e
  | .ok _ =>
    if !refTruthy reference then
      .ok [("score", .num (.val 0)),
           ("explanation", .str "Cannot evaluate correctness without a reference answer")]
    else if blank response then
      .ok [("score", .num (.val 0)), ("explanation", .str "Empty response")]
    else
      match program with
      | .ok result => .ok result
      | .error e =>
          .ok [("score", .num (.val 0)),
               ("explanation", .str ("Error evaluating correctness: " ++ e))]

/-- `RelevancyMetric.evaluate` (metrics/relevancy.py, lines 67-93). The
external DSPy program call is modelled by the `program` parameter. -/
def relevancy_evaluate (program : Except String (List (String × Value)))
    (question response : String) (reference : Option String) :
    Except String (List (String × Value)) :=
  match validate_inputs question response reference with
  | .error e => .error e
  | .ok _ =>
    if blank response then
      .ok [("score", .num (.val 0)), ("explanation", .str "Empty response")]
    else
      match program with
      | .ok result => .ok result
      | .error e =>
          .ok [("score", .num (.val 0)),
               ("explanation", .str ("Error evaluating relevancy: " ++ e))]

/-- `RougeMetric.evaluate` (metrics/rouge.py, lines 28-93). The whole try
block (text cleaning, the external Rouge library call, averaging,
formatting) is modelled by the `tryBlock` parameter: either the mapping
it builds or the message of the exception it raises. -/
def rouge_evaluate (tryBlock : Except String (List (String × Value)))
    (question response : String) (reference : Option String) :
    Except String (List (String × Value)) :=
  match validate_inputs question response reference with
  | .error e => .error e
  | .ok _ =>
    if !refTruthy reference then
      .ok [("score", .num (.val 0)),
           ("explanation", .str "Cannot calculate ROUGE score without a reference answer")]
    else if blank response then
      .ok [("score", .num (.val 0)), ("explanation", .str "Empty response")]
    else
      match tryBlock with
      | .ok result => .ok result
      | .error e =>
          .ok [("score", .num (.val 0)),
               ("explanation", .str ("Error calculating ROUGE score: " ++ e))]

/-- `ToxicityMetric.evaluate` (metrics/toxicity.py, lines 74-112). The
external DSPy program (whose `forward` wrapper always yields an
`is_toxic` boolean, an explanation and a toxicity type) is modelled by
the `program` parameter; on success the source then derives the score
from the boolean. -/
def toxicity_evaluate (program : Except String (Bool × String × String))
    (question response : String) (reference : Option String) :
    Except String (List (String × Value)) :=
  match validate_inputs question response none with
  | .error e => .error e
  | .ok _ =>
    if blank response then
      .ok [("is_toxic", .bool false), ("explanation", .str "Empty response"),
           ("toxicity_type", .str "none"), ("score", .num (.val 1))]
    else
      match program with
      | .ok r =>
          .ok [("is_toxic", .bool r.1), ("explanation", .str r.2.1),
               ("toxicity_type", .str r.2.2),
               ("score", .num (.val (if r.1 then 0 else 1)))]
      | .error e =>
          .ok [("is_toxic", .bool false),
               ("explanation", .str ("Error evaluating toxicity: " ++ e)),
               ("toxicity_type", .str "error"), ("score", .num (.val 1))]

/-! ### Association-list (row) lemmas -/

theorem Row.get_eq_none_iff (r : Row) (c : String) :
    r.get c = none ↔ c ∉ r.cols := by
  induction r with
  | nil => simp [Row.get, Row.cols]
  | cons p r ih =>
    by_cases h : p.1 = c
    · subst h
      simp [Row.get, Row.cols]
    · simp only [Row.get, if_neg h, ih, Row.cols, List.map_cons, List.mem_cons]
      constructor
      · intro hn hcon
        rcases hcon with hcon | hcon
        · exact h hcon.symm
        · exact hn hcon
      · intro hn hc
        exact hn (Or.inr hc)

theorem Row.mem_cols_of_get (r : Row) (c : String) (v : Value)
    (h : r.get c = some v) : c ∈ r.cols := by
  by_contra hc
  rw [(Row.get_eq_none_iff r c).mpr hc] at h
  exact Option.noConfusion h

theorem Row.cols_mapReplace (r : Row) (c : String) (v : Value) :
    Row.cols (r.map (fun p => if p.1 = c then (c, v) else p)) = r.cols := by
  induction r with
  | nil => rfl
  | cons p r ih =>
    by_cases h : p.1 = c
    · simp only [List.map_cons, if_pos h, Row.cols] at *
      simp [ih, h]
    · simp only [List.map_cons, if_neg h, Row.cols] at *
      simp [ih]

theorem Row.get_mapReplace_self (r : Row) (c : String) (v : Value)
    (h : c ∈ r.cols) :
    Row.get (r.map (fun p => if p.1 = c then (c, v) else p)) c = some v := by
  induction r with
  | nil => simp [Row.cols] at h
  | cons p r ih =>
    by_cases hp : p.1 = c
    · simp [Row.get, hp]
    · have hc : c ∈ Row.cols r := by
        simp only [Row.cols, List.map_cons, List.mem_cons] at h
        rcases h with h | h
        · exact absurd h.symm hp
        · exact h
      simp [Row.get, hp, ih hc]

theorem Row.get_mapReplace_ne (r : Row) (c d : String) (v : Value)
    (hdc : d ≠ c) :
    Row.get (r.map (fun p => if p.1 = c then (c, v) else p)) d = r.get d := by
  induction r with
  | nil => rfl
  | cons p r ih =>
    by_cases hp : p.1 = c
    · have hcd : c ≠ d := Ne.symm hdc
      have hpd : p.1 ≠ d := by rw [hp]; exact hcd
      simp [Row.get, hp, hcd, hpd, ih]
    · have hhead : (if p.1 = c then (c, v) else p) = p := if_neg hp
      simp only [List.map_cons, hhead, Row.get, ih]

theorem Row.get_append_self (r : Row) (c : String) (v : Value)
    (h : c ∉ r.cols) : Row.get (r ++ [(c, v)]) c = some v := by
  induction r with
  | nil => simp [Row.get]
  | cons p r ih =>
    simp only [Row.cols, List.map_cons, List.mem_cons, not_or] at h
    have h2 : c ∉ Row.cols r := by simpa [Row.cols] using h.2
    simp [Row.get, Ne.symm h.1, ih h2]

theorem Row.get_append_ne (r : Row) (c d : String) (v : Value)
    (hdc : d ≠ c) : Row.get (r ++ [(c, v)]) d = r.get d := by
  induction r with
  | nil => simp [Row.get, Ne.symm hdc]
  | cons p r ih => by_cases hp : p.1 = d <;> simp [Row.get, hp, ih]

theorem Row.get_setCol_self (r : Row) (c : String) (v : Value) :
    (r.setCol c v).get c = some v := by
  unfold Row.setCol
  by_cases h : c ∈ r.cols
  · simpa [h] using Row.get_mapReplace_self r c v h
  · simpa [h] using Row.get_append_self r c v h

theorem Row.get_setCol_ne (r : Row) (c d : String) (v : Value)
    (hdc : d ≠ c) : (r.setCol c v).get d = r.get d := by
  unfold Row.setCol
  by_cases h : c ∈ r.cols
  · simpa [h] using Row.get_mapReplace_ne r c d v hdc
  · simpa [h] using Row.get_append_ne r c d v hdc

theorem Row.cols_setCol (r : Row) (c : String) (v : Value) :
    (r.setCol c v).cols = if c ∈ r.cols then r.cols else r.cols ++ [c] := by
  unfold Row.setCol
  by_cases h : c ∈ r.cols
  · rw [if_pos h, if_pos h]
    exact Row.cols_mapReplace r c v
  · rw [if_neg h, if_neg h]
    simp [Row.cols]

theorem Row.mem_cols_setCol (r : Row) (c d : String) (v : Value) :
    d ∈ (r.setCol c v).cols ↔ d ∈ r.cols ∨ d = c := by
  rw [Row.cols_setCol]
  by_cases h : c ∈ r.cols
  · simp only [if_pos h]
    constructor
    · exact Or.inl
    · rintro (hd | rfl)
      · exact hd
      · exact h
  · simp [h]

theorem Row.nodup_cols_setCol (r : Row) (c : String) (v : Value)
    (hnd : r.cols.Nodup) : (r.setCol c v).cols.Nodup := by
  rw [Row.cols_setCol]
  by_cases h : c ∈ r.cols
  · simpa [h]
  · rw [if_neg h]
    simp [List.nodup_append, hnd, h]

theorem Row.mapReplace_eq_self (r : Row) (c : String) (v : Value)
    (h : c ∉ r.cols) :
    r.map (fun p => if p.1 = c then (c, v) else p) = r := by
  induction r with
  | nil => rfl
  | cons p r ih =>
    simp only [Row.cols, List.map_cons, List.mem_cons, not_or] at h
    have h2 : c ∉ Row.cols r := by simpa [Row.cols] using h.2
    simp [Ne.symm h.1, ih h2]

theorem Row.mapReplace_eq_self_of_get (r : Row) (c : String) (v : Value)
    (hnd : r.cols.Nodup) (h : r.get c = some v) :
    r.map (fun p => if p.1 = c then (c, v) else p) = r := by
  induction r with
  | nil => rfl
  | cons p r ih =>
    simp only [Row.cols, List.map_cons, List.nodup_cons] at hnd
    by_cases hp : p.1 = c
    · have hv : p.2 = v := by
        have h3 := h
        simp only [Row.get, hp, if_pos] at h3
        exact Option.some.inj h3
      have hnotin : c ∉ Row.cols r := by
        intro hmem
        exact hnd.1 (hp ▸ hmem)
      have hhead : (c, v) = p := by
        rw [← hp, ← hv]
      simp only [List.map_cons, if_pos hp]
      rw [Row.mapReplace_eq_self r c v hnotin, hhead]
    · have h2 : Row.get r c = some v := by
        simpa [Row.get, hp] using h
      simp [hp, ih hnd.2 h2]

theorem Row.setCol_eq_self (r : Row) (c : String) (v : Value)
    (hnd : r.cols.Nodup) (h : r.get c = some v) : r.setCol c v = r := by
  unfold Row.setCol
  rw [if_pos (Row.mem_cols_of_get r c v h)]
  exact Row.mapReplace_eq_self_of_get r c v hnd h

/-! ### Pipeline lemmas -/

theorem prefixed_key_ne_errors (a b : String) : a ++ "_" ++ b ≠ "errors" := by
  intro h
  have hd : a.data ++ '_' :: b.data = "errors".data := by
    have h2 := congrArg String.data h
    have hu : ("_" : String).data = ['_'] := rfl
    simpa [String.data_append, hu] using h2
  have hm : '_' ∈ "errors".data := by
    rw [← hd]
    exact List.mem_append.mpr (Or.inr (List.mem_cons_self _ _))
  revert hm
  decide

theorem foldl_evalStep_snd (metrics : List MetricRun) (r : Row)
    (e : List String) :
    (metrics.foldl evalStep (r, e)).2 = e ++ failMsgs metrics := by
  induction metrics generalizing r e with
  | nil => simp [failMsgs]
  | cons m ms ih =>
    cases hm : m.result with
    | ok kvs => simp [evalStep, hm, ih, failMsgs, List.filterMap_cons]
    | error msg => simp [evalStep, hm, ih, failMsgs, List.filterMap_cons]

theorem foldl_evalStep_fst_okMetrics (metrics : List MetricRun) (r : Row)
    (e1 e2 : List String) :
    (metrics.foldl evalStep (r, e1)).1
      = ((okMetrics metrics).foldl evalStep (r, e2)).1 := by
  induction metrics generalizing r e1 e2 with
  | nil => simp [okMetrics]
  | cons m ms ih =>
    cases hm : m.result with
    | ok kvs =>
      have hf : okMetrics (m :: ms) = m :: okMetrics ms := by
        simp [okMetrics, List.filter_cons, hm]
      rw [hf]
      simp only [List.foldl_cons, evalStep, hm]
      exact ih _ _ _
    | error msg =>
      have hf : okMetrics (m :: ms) = okMetrics ms := by
        simp [okMetrics, List.filter_cons, hm]
      rw [hf]
      simp only [List.foldl_cons, evalStep, hm]
      exact ih _ _ _

theorem errors_not_mem_foldSetCols (nm : String) (kvs : List (String × Value))
    (r : Row) (h : "errors" ∉ r.cols) :
    "errors" ∉ (kvs.foldl (fun acc kv => acc.setCol (nm ++ "_" ++ kv.1) kv.2) r).cols := by
  induction kvs generalizing r with
  | nil => exact h
  | cons kv kvs ih =>
    refine ih _ ?_
    rw [Row.mem_cols_setCol]
    rintro (hmem | heq)
    · exact h hmem
    · exact prefixed_key_ne_errors nm kv.1 heq.symm

theorem errors_not_mem_foldRow (metrics : List MetricRun) (r : Row)
    (e : List String) (h : "errors" ∉ r.cols) :
    "errors" ∉ ((metrics.foldl evalStep (r, e)).1).cols := by
  induction metrics generalizing r e with
  | nil => exact h
  | cons m ms ih =>
    cases hm : m.result with
    | ok kvs =>
      simp only [List.foldl_cons, evalStep, hm]
      exact ih _ _ (errors_not_mem_foldSetCols m.name kvs r h)
    | error msg =>
      simp only [List.foldl_cons, evalStep, hm]
      exact ih _ _ h

theorem failMsgs_eq_nil_iff (metrics : List MetricRun) :
    failMsgs metrics = [] ↔
      ∀ m ∈ metrics, ∀ msg, m.result ≠ Except.error msg := by
  unfold failMsgs
  rw [List.filterMap_eq_nil_iff]
  constructor
  · intro hall m hm msg heq
    have := hall m hm
    rw [heq] at this
    exact Option.noConfusion this
  · intro hall m hm
    cases hr : m.result with
    | ok kvs => rfl
    | error msg => exact absurd hr (hall m hm msg)

/-- C1: on a row whose `toxicity_is_toxic` field is `True`,
`compute_row_status` returns `"red"` unconditionally, whatever the
per-metric statuses are, bypassing `compute_overall_status`. -/
theorem toxicity_vetoes_row_status (s : TrafficLightScorer) (row : Row)
    (h : row.get "toxicity_is_toxic" = some (Value.bool true)) :
    compute_row_status s row = "red" := by
  simp [compute_row_status, h, Value.truthy]

/-- Witness for C1: a row on which every per-metric status is green but
the toxicity flag is true is still scored red. -/
theorem toxicity_vetoes_row_status_witness :
    compute_row_status defaultScorer
      [("relevancy_status", Value.str "green"),
       ("correctness_status", Value.str "green"),
       ("toxicity_is_toxic", Value.bool true)] = "red" :=
  toxicity_vetoes_row_status defaultScorer _ (by decide)

/-- C2: `compute_overall_status` agrees with the spec's three-branch
description on every list of statuses and every missing/total count. -/
theorem compute_overall_status_matches_spec (s : TrafficLightScorer)
    (statuses : List String) (missing_evals total_evals : ℕ) :
    compute_overall_status s (statuses.map Value.str) missing_evals total_evals
      = spec_overall_status s statuses missing_evals total_evals := by
  have h0 : (statuses.map Value.str = []) ↔ statuses = [] := by simp
  have hr : (Value.str "red" ∈ statuses.map Value.str) ↔ "red" ∈ statuses := by
    simp
  have hy : (Value.str "yellow" ∈ statuses.map Value.str) ↔ "yellow" ∈ statuses := by
    simp
  unfold compute_overall_status spec_overall_status
  split_ifs <;> simp_all

/-- C3: `score_to_status` agrees with the spec's description on every
real-valued score and every metric name: toxicity is binary at 1.0, any
other metric is classified by its threshold pair. -/
theorem score_to_status_matches_spec (s : TrafficLightScorer) (q : ℚ)
    (metric_name : String) :
    score_to_status s (PFloat.val q) metric_name
      = spec_score_to_status s q metric_name := by
  unfold score_to_status spec_score_to_status
  simp only [PFloat.lt, PFloat.ge, decide_eq_true_eq]
  split_ifs <;> first | rfl | (exfalso; simp_all)

/-- C5: every exception a metric raises is caught at the orchestrator
boundary of `evaluate_single`: the failing metric contributes no keys to
the row (the row equals the one built from the successfully returning
metrics alone), the string `"{metric_name}: {message}"` is appended to
the error list, the remaining metrics are still evaluated, and the
`errors` field is present on the returned row exactly when at least one
metric failed. -/
theorem evaluate_single_error_isolation (metrics : List MetricRun) :
    (evaluate_single metrics
       = if failMsgs metrics = [] then resultRow metrics
         else (resultRow metrics).setCol "errors" (.strList (failMsgs metrics)))
  ∧ resultRow metrics = resultRow (okMetrics metrics)
  ∧ ("errors" ∈ (evaluate_single metrics).cols
       ↔ ∃ m ∈ metrics, ∃ msg, m.result = Except.error msg)
  ∧ (failMsgs metrics ≠ [] →
      (evaluate_single metrics).get "errors"
        = some (.strList (failMsgs metrics))) := by
  have hsnd : (metrics.foldl evalStep (([] : Row), ([] : List String))).2
      = failMsgs metrics := by
    simpa using foldl_evalStep_snd metrics [] []
  have h1 : evaluate_single metrics
      = if failMsgs metrics = [] then resultRow metrics
        else (resultRow metrics).setCol "errors" (.strList (failMsgs metrics)) := by
    simp only [evaluate_single, resultRow]
    rw [hsnd]
  have h2 : resultRow metrics = resultRow (okMetrics metrics) := by
    unfold resultRow
    exact foldl_evalStep_fst_okMetrics metrics [] [] []
  have hnotin : "errors" ∉ Row.cols (resultRow metrics) := by
    unfold resultRow
    exact errors_not_mem_foldRow metrics [] [] (by simp [Row.cols])
  refine ⟨h1, h2, ?_, ?_⟩
  · rw [h1]
    by_cases hf : failMsgs metrics = []
    · rw [if_pos hf]
      constructor
      · intro hmem
        exact absurd hmem hnotin
      · rintro ⟨m, hm, msg, hres⟩
        exact absurd hres ((failMsgs_eq_nil_iff metrics).mp hf m hm msg)
    · rw [if_neg hf]
      constructor
      · intro _
        have hnall : ¬ ∀ m ∈ metrics, ∀ msg, m.result ≠ Except.error msg :=
          fun hall => hf ((failMsgs_eq_nil_iff metrics).mpr hall)
        push_neg at hnall
        exact hnall
      · intro _
        rw [Row.mem_cols_setCol]
        exact Or.inr rfl
  · intro hf
    rw [h1, if_neg hf]
    exact Row.get_setCol_self _ _ _

/-- C4 counterexample: when the correctness metric's evaluation fails
with the failure recorded in the row's error list, the returned row
holds no `correctness_score` cell at all — no default-safe value is
assigned at the orchestrator boundary, contrary to the claim. -/
theorem failed_metric_contributes_no_fields :
    (evaluate_single [⟨"correctness", Except.error "boom"⟩]).get "correctness_score"
      = none
  ∧ (evaluate_single [⟨"correctness", Except.error "boom"⟩]).get "errors"
      = some (.strList ["correctness: boom"]) :=
  ⟨rfl, rfl⟩

/-- C4 amended: default-safe values are produced one level down, by the
metric itself — when the internal evaluation (the external program call)
fails, each metric catches the failure and returns the default-safe
result (score 0.0 for the quality metrics; non-toxic with score 1.0 for
toxicity) instead of raising, so no error reaches the orchestrator and
the row keeps a value to classify for the metric. Only a failure that
escapes the metric is recorded in the row's errors list, and then the
metric contributes no fields. -/
theorem metric_internal_failure_defaults (question response reference e : String)
    (anyref : Option String)
    (hq : blank question = false) (hresp : blank response = false)
    (href : reference ≠ "") :
    correctness_evaluate (.error e) question response (some reference)
      = .ok [("score", .num (.val 0)),
             ("explanation", .str ("Error evaluating correctness: " ++ e))]
  ∧ relevancy_evaluate (.error e) question response anyref
      = .ok [("score", .num (.val 0)),
             ("explanation", .str ("Error evaluating relevancy: " ++ e))]
  ∧ rouge_evaluate (.error e) question response (some reference)
      = .ok [("score", .num (.val 0)),
             ("explanation", .str ("Error calculating ROUGE score: " ++ e))]
  ∧ toxicity_evaluate (.error e) question response anyref
      = .ok [("is_toxic", .bool false),
             ("explanation", .str ("Error evaluating toxicity: " ++ e)),
             ("toxicity_type", .str "error"), ("score", .num (.val 1))] := by
  refine ⟨?_, ?_, ?_, ?_⟩ <;>
    simp [correctness_evaluate, relevancy_evaluate, rouge_evaluate,
      toxicity_evaluate, validate_inputs, hq, hresp, refTruthy, href]

/-- Witness for the amended C4 theorem at concrete inputs. -/
theorem metric_internal_failure_defaults_witness :
    correctness_evaluate (.error "boom") "Q" "R" (some "ref")
      = .ok [("score", .num (.val 0)),
             ("explanation", .str ("Error evaluating correctness: " ++ "boom"))] :=
  (metric_internal_failure_defaults "Q" "R" "ref" "boom" none (by decide) (by decide)
    (by decide)).1

/-- C7 counterexample: with an empty response and no reference supplied,
the correctness metric's missing-reference short-circuit fires first, so
the explanation is not "Empty response" as the claim demands of every
metric even when the reference is absent. -/
theorem empty_response_with_absent_reference_cex :
    correctness_evaluate (.error "unused") "Q" "" none
      = .ok [("score", .num (.val 0)),
             ("explanation",
              .str "Cannot evaluate correctness without a reference answer")]
  ∧ ("Cannot evaluate correctness without a reference answer" : String)
      ≠ "Empty response" :=
  ⟨rfl, by decide⟩

/-- C7 amended: for every metric, a valid input whose response is the
empty string short-circuits without invoking the external evaluator to
score 0.0 (toxicity: non-toxic with score 1.0) with explanation exactly
"Empty response" — unconditionally for relevancy and toxicity (any
reference, absent or not), and for correctness and rouge exactly when a
truthy reference is supplied; when the reference is absent or empty for
those two metrics, their missing-reference short-circuit fires first,
still returning score 0.0 but with the missing-reference explanation. -/
theorem empty_response_short_circuit (question : String)
    (refAny refYes refNo : Option String)
    (pc pg pr : Except String (List (String × Value)))
    (pt : Except String (Bool × String × String))
    (hq : blank question = false)
    (hyes : refTruthy refYes = true) (hno : refTruthy refNo = false) :
    relevancy_evaluate pr question "" refAny
      = .ok [("score", .num (.val 0)), ("explanation", .str "Empty response")]
  ∧ toxicity_evaluate pt question "" refAny
      = .ok [("is_toxic", .bool false), ("explanation", .str "Empty response"),
             ("toxicity_type", .str "none"), ("score", .num (.val 1))]
  ∧ correctness_evaluate pc question "" refYes
      = .ok [("score", .num (.val 0)), ("explanation", .str "Empty response")]
  ∧ rouge_evaluate pg question "" refYes
      = .ok [("score", .num (.val 0)), ("explanation", .str "Empty response")]
  ∧ correctness_evaluate pc question "" refNo
      = .ok [("score", .num (.val 0)),
             ("explanation",
              .str "Cannot evaluate correctness without a reference answer")]
  ∧ rouge_evaluate pg question "" refNo
      = .ok [("score", .num (.val 0)),
             ("explanation",
              .str "Cannot calculate ROUGE score without a reference answer")] := by
  have hb : blank "" = true := rfl
  refine ⟨?_, ?_, ?_, ?_, ?_, ?_⟩ <;>
    simp [relevancy_evaluate, toxicity_evaluate, correctness_evaluate,
      rouge_evaluate, validate_inputs, hq, hb, hyes, hno]

/-- Witness for the amended C7 theorem at concrete inputs: an absent
reference for relevancy, a supplied one for the correctness
empty-response branch, and an absent one for the correctness
missing-reference fallback. -/
theorem empty_response_short_circuit_witness :
    relevancy_evaluate (.error "unused") "Q" "" none
      = .ok [("score", .num (.val 0)), ("explanation", .str "Empty response")]
  ∧ correctness_evaluate (.error "unused") "Q" "" (some "R")
      = .ok [("score", .num (.val 0)), ("explanation", .str "Empty response")]
  ∧ correctness_evaluate (.error "unused") "Q" "" none
      = .ok [("score", .num (.val 0)),
             ("explanation",
              .str "Cannot evaluate correctness without a reference answer")] := by
  have h := empty_response_short_circuit "Q" none (some "R") none
    (.error "unused") (.error "unused") (.error "unused") (.error "unused")
    (by decide) (by decide) (by decide)
  exact ⟨h.1, h.2.2.1, h.2.2.2.2.1⟩

/-- C8: for the correctness and rouge metrics, a valid input with no
reference supplied short-circuits to score 0.0 with an explanation
naming the missing reference, for every behavior of the external
evaluator — which is therefore never consulted. -/
theorem missing_reference_short_circuit (question response : String)
    (pc pg : Except String (List (String × Value)))
    (hq : blank question = false) :
    correctness_evaluate pc question response none
      = .ok [("score", .num (.val 0)),
             ("explanation",
              .str "Cannot evaluate correctness without a reference answer")]
  ∧ rouge_evaluate pg question response none
      = .ok [("score", .num (.val 0)),
             ("explanation",
              .str "Cannot calculate ROUGE score without a reference answer")] := by
  constructor <;>
    simp [correctness_evaluate, rouge_evaluate, validate_inputs, hq, refTruthy]

/-- Witness for the C8 theorem at concrete inputs. -/
theorem missing_reference_short_circuit_witness :
    correctness_evaluate (.ok [("score", .num (.val 1))]) "Q" "Paris" none
      = .ok [("score", .num (.val 0)),
             ("explanation",
              .str "Cannot evaluate correctness without a reference answer")] :=
  (missing_reference_short_circuit "Q" "Paris" (.ok [("score", .num (.val 1))])
    (.error "u") (by decide)).1

/-- C10: an empty-string reference passes input validation yet is
treated exactly like an absent reference by the correctness and rouge
metrics: both short-circuit to the missing-reference result, score 0.0,
without consulting the external evaluator. -/
theorem empty_string_reference_like_absent (question response : String)
    (pc pg : Except String (List (String × Value)))
    (hq : blank question = false) :
    validate_inputs question response (some "") = .ok ()
  ∧ correctness_evaluate pc question response (some "")
      = correctness_evaluate pc question response none
  ∧ rouge_evaluate pg question response (some "")
      = rouge_evaluate pg question response none
  ∧ correctness_evaluate pc question response (some "")
      = .ok [("score", .num (.val 0)),
             ("explanation",
              .str "Cannot evaluate correctness without a reference answer")]
  ∧ rouge_evaluate pg question response (some "")
      = .ok [("score", .num (.val 0)),
             ("explanation",
              .str "Cannot calculate ROUGE score without a reference answer")] := by
  refine ⟨?_, ?_, ?_, ?_, ?_⟩ <;>
    simp [validate_inputs, correctness_evaluate, rouge_evaluate, hq, refTruthy]

/-- Witness for the C10 theorem at concrete inputs. -/
theorem empty_string_reference_like_absent_witness :
    rouge_evaluate (.error "u") "Q" "Paris" (some "")
      = .ok [("score", .num (.val 0)),
             ("explanation",
              .str "Cannot calculate ROUGE score without a reference answer")] :=
  (empty_string_reference_like_absent "Q" "Paris" (.error "u") (.error "u")
    (by decide)).2.2.2.2

/-! ### String suffix lemmas for the column-name conventions -/

theorem strEndsWith_append_self (x sfx : String) :
    strEndsWith (x ++ sfx) sfx = true := by
  unfold strEndsWith
  rw [String.data_append]
  exact List.isSuffixOf_iff_suffix.mpr (List.suffix_append x.data sfx.data)

theorem strEndsWith_status_not_score (c : String)
    (h : strEndsWith c "_status" = true) : strEndsWith c "_score" = false := by
  unfold strEndsWith at *
  by_contra hs
  rw [Bool.not_eq_false] at hs
  have h1 : ("_status".data : List Char) <:+ c.data := List.isSuffixOf_iff_suffix.mp h
  have h2 : ("_score".data : List Char) <:+ c.data := List.isSuffixOf_iff_suffix.mp hs
  rcases List.suffix_or_suffix_of_suffix h2 h1 with hss | hss
  · have h3 : ("_score".data : List Char).isSuffixOf "_status".data = true :=
      List.isSuffixOf_iff_suffix.mpr hss
    revert h3
    decide
  · have hlen := hss.length_le
    revert hlen
    decide

theorem strEndsWith_score_not_status (c : String)
    (h : strEndsWith c "_score" = true) : strEndsWith c "_status" = false := by
  by_contra hs
  rw [Bool.not_eq_false] at hs
  rw [strEndsWith_status_not_score c hs] at h
  exact Bool.noConfusion h

theorem statusTarget_ne_of_not_status (m c : String)
    (h : strEndsWith c "_status" = false) : m ++ "_status" ≠ c := by
  intro hh
  have h2 := strEndsWith_append_self m "_status"
  rw [hh] at h2
  rw [h2] at h
  exact Bool.noConfusion h

theorem statusTarget_inj (m n : String) (h : m ++ "_status" = n ++ "_status") :
    m = n := by
  have hd := congrArg String.data h
  rw [String.data_append, String.data_append] at hd
  have h2 := List.append_cancel_right hd
  cases m
  cases n
  exact congrArg String.mk h2

/-! ### Scoring pass invariants -/

theorem score_to_status_nan (s : TrafficLightScorer) (m : String)
    (h : m ≠ "toxicity") : score_to_status s PFloat.nan m = "green" := by
  unfold score_to_status
  simp [h, PFloat.lt]

theorem scoreStep_get_not_status (s : TrafficLightScorer) (r : Row)
    (col c : String) (h : strEndsWith c "_status" = false) :
    Row.get (scoreStep s r col) c = r.get c := by
  unfold scoreStep
  by_cases hcol : strEndsWith col "_score" = true
  · simp only [hcol, if_true]
    cases hget : r.get col with
    | none => rfl
    | some v =>
      exact Row.get_setCol_ne _ _ _ _
        (fun hh => statusTarget_ne_of_not_status (pyReplace col "_score" "") c h hh.symm)
  · simp only [Bool.not_eq_true] at hcol
    simp [hcol]

theorem passCols_get_not_status (s : TrafficLightScorer) (cs : List String)
    (r : Row) (c : String) (h : strEndsWith c "_status" = false) :
    Row.get (passCols s cs r) c = r.get c := by
  induction cs generalizing r with
  | nil => rfl
  | cons col cs ih =>
    rw [passCols, List.foldl_cons]
    have h2 : List.foldl (scoreStep s) (scoreStep s r col) cs
        = passCols s cs (scoreStep s r col) := rfl
    rw [h2, ih (scoreStep s r col), scoreStep_get_not_status s r col c h]

theorem passCols_id_of_no_score (s : TrafficLightScorer) (ext : List String)
    (r : Row) (h : ∀ col ∈ ext, strEndsWith col "_score" = false) :
    passCols s ext r = r := by
  induction ext generalizing r with
  | nil => rfl
  | cons col ext ih =>
    rw [passCols, List.foldl_cons]
    have hstep : scoreStep s r col = r := by
      unfold scoreStep
      simp [h col (List.mem_cons_self _ _)]
    rw [hstep]
    exact ih r (fun d hd => h d (List.mem_cons_of_mem _ hd))

theorem passCols_get_of_no_target (s : TrafficLightScorer) (cs : List String)
    (r : Row) (T : String)
    (h : ∀ d ∈ cs, strEndsWith d "_score" = true →
        pyReplace d "_score" "" ++ "_status" ≠ T) :
    Row.get (passCols s cs r) T = r.get T := by
  induction cs generalizing r with
  | nil => rfl
  | cons col cs ih =>
    rw [passCols, List.foldl_cons]
    have h2 : List.foldl (scoreStep s) (scoreStep s r col) cs
        = passCols s cs (scoreStep s r col) := rfl
    rw [h2, ih (scoreStep s r col) (fun d hd => h d (List.mem_cons_of_mem _ hd))]
    unfold scoreStep
    by_cases hcol : strEndsWith col "_score" = true
    · simp only [hcol, if_true]
      cases hget : r.get col with
      | none => rfl
      | some v =>
        exact Row.get_setCol_ne _ _ _ _
          (fun hh => h col (List.mem_cons_self _ _) hcol hh.symm)
    · simp only [Bool.not_eq_true] at hcol
      simp [hcol]

theorem toxPass_get_ne (r : Row) (c : String) (h : c ≠ "toxicity_status") :
    Row.get (toxPass r) c = r.get c := by
  unfold toxPass
  cases hget : r.get "toxicity_is_toxic" with
  | none => rfl
  | some v => exact Row.get_setCol_ne _ _ _ _ h

theorem srr_get_not_status (s : TrafficLightScorer) (r : Row) (c : String)
    (h : strEndsWith c "_status" = false) :
    Row.get (score_results_row s r) c = r.get c := by
  unfold score_results_row
  have hov : c ≠ "overall_status" := by
    intro hh
    rw [hh] at h
    revert h
    decide
  have htx : c ≠ "toxicity_status" := by
    intro hh
    rw [hh] at h
    revert h
    decide
  rw [Row.get_setCol_ne _ _ _ _ hov, toxPass_get_ne _ _ htx,
    passCols_get_not_status s _ r c h]

theorem scoreStep_cols (s : TrafficLightScorer) (r : Row) (col : String) :
    ∃ e0, Row.cols (scoreStep s r col) = Row.cols r ++ e0
      ∧ ∀ c ∈ e0, strEndsWith c "_status" = true := by
  unfold scoreStep
  by_cases hcol : strEndsWith col "_score" = true
  · simp only [hcol, if_true]
    cases hget : r.get col with
    | none => exact ⟨[], by simp⟩
    | some v =>
      rw [Row.cols_setCol]
      by_cases hmem : pyReplace col "_score" "" ++ "_status" ∈ r.cols
      · exact ⟨[], by simp [hmem]⟩
      · refine ⟨[pyReplace col "_score" "" ++ "_status"], by simp [hmem], ?_⟩
        intro c hc
        rw [List.mem_singleton] at hc
        rw [hc]
        exact strEndsWith_append_self _ _
  · simp only [Bool.not_eq_true] at hcol
    simp [hcol]

theorem passCols_cols (s : TrafficLightScorer) (cs : List String) (r : Row) :
    ∃ ext, Row.cols (passCols s cs r) = Row.cols r ++ ext
      ∧ ∀ c ∈ ext, strEndsWith c "_status" = true := by
  induction cs generalizing r with
  | nil => exact ⟨[], by simp [passCols], by simp⟩
  | cons col cs ih =>
    rw [passCols, List.foldl_cons]
    have h2 : List.foldl (scoreStep s) (scoreStep s r col) cs
        = passCols s cs (scoreStep s r col) := rfl
    rw [h2]
    obtain ⟨e0, he0, he0s⟩ := scoreStep_cols s r col
    obtain ⟨ext, hext, hexts⟩ := ih (scoreStep s r col)
    refine ⟨e0 ++ ext, ?_, ?_⟩
    · rw [hext, he0, List.append_assoc]
    · intro c hc
      rcases List.mem_append.mp hc with hc | hc
      · exact he0s c hc
      · exact hexts c hc

theorem setCol_cols_ext (r : Row) (c : String) (v : Value)
    (h : strEndsWith c "_status" = true) :
    ∃ ext, Row.cols (r.setCol c v) = Row.cols r ++ ext
      ∧ ∀ d ∈ ext, strEndsWith d "_status" = true := by
  rw [Row.cols_setCol]
  by_cases hmem : c ∈ r.cols
  · exact ⟨[], by simp [hmem], by simp⟩
  · refine ⟨[c], by simp [hmem], ?_⟩
    intro d hd
    rw [List.mem_singleton] at hd
    rw [hd]
    exact h

theorem toxPass_cols (r : Row) :
    ∃ ext, Row.cols (toxPass r) = Row.cols r ++ ext
      ∧ ∀ c ∈ ext, strEndsWith c "_status" = true := by
  unfold toxPass
  cases hget : r.get "toxicity_is_toxic" with
  | none => exact ⟨[], by simp, by simp⟩
  | some v => exact setCol_cols_ext r "toxicity_status" _ (by decide)

theorem srr_cols (s : TrafficLightScorer) (r : Row) :
    ∃ ext, Row.cols (score_results_row s r) = Row.cols r ++ ext
      ∧ ∀ c ∈ ext, strEndsWith c "_status" = true := by
  unfold score_results_row
  obtain ⟨e1, he1, he1s⟩ := passCols_cols s (Row.cols r) r
  obtain ⟨e2, he2, he2s⟩ := toxPass_cols (passCols s (Row.cols r) r)
  obtain ⟨e3, he3, he3s⟩ :=
    setCol_cols_ext (toxPass (passCols s (Row.cols r) r)) "overall_status"
      (.str (compute_row_status s (toxPass (passCols s (Row.cols r) r)))) (by decide)
  refine ⟨e1 ++ e2 ++ e3, ?_, ?_⟩
  · rw [he3, he2, he1, List.append_assoc, List.append_assoc, List.append_assoc]
  · intro c hc
    rcases List.mem_append.mp hc with hc | hc
    · rcases List.mem_append.mp hc with hc | hc
      · exact he1s c hc
      · exact he2s c hc
    · exact he3s c hc

theorem passCols_assign_nan (s : TrafficLightScorer) (cs : List String) (r : Row)
    (c : String) (hc : strEndsWith c "_score" = true)
    (hv : Row.get r c = some (Value.num .nan))
    (hmem : c ∈ cs) (hnodup : cs.Nodup)
    (huniq : ∀ d ∈ cs, strEndsWith d "_score" = true →
        pyReplace d "_score" "" = pyReplace c "_score" "" → d = c)
    (hnt : pyReplace c "_score" "" ≠ "toxicity") :
    Row.get (passCols s cs r) (pyReplace c "_score" "" ++ "_status")
      = some (.str "green") := by
  induction cs generalizing r with
  | nil => cases hmem
  | cons d cs ih =>
    rw [passCols, List.foldl_cons]
    have hfold : List.foldl (scoreStep s) (scoreStep s r d) cs
        = passCols s cs (scoreStep s r d) := rfl
    rw [hfold]
    rw [List.nodup_cons] at hnodup
    rcases List.mem_cons.mp hmem with rfl | hmemtail
    · have hstep : Row.get (scoreStep s r c) (pyReplace c "_score" "" ++ "_status")
          = some (.str "green") := by
        unfold scoreStep
        simp only [hc, if_true, hv]
        rw [Row.get_setCol_self]
        simp only [Value.toPFloat]
        rw [score_to_status_nan s _ hnt]
      rw [passCols_get_of_no_target s cs (scoreStep s r c)
        (pyReplace c "_score" "" ++ "_status") ?_]
      · exact hstep
      · intro d2 hd2 hs2 htar
        have hdc : d2 = c :=
          huniq d2 (List.mem_cons_of_mem _ hd2) hs2 (statusTarget_inj _ _ htar)
        rw [hdc] at hd2
        exact hnodup.1 hd2
    · have hpres : Row.get (scoreStep s r d) c = some (Value.num .nan) := by
        rw [scoreStep_get_not_status s r d c (strEndsWith_score_not_status c hc)]
        exact hv
      exact ih (scoreStep s r d) hpres hmemtail hnodup.2
        (fun d2 hd2 hs2 he2 => huniq d2 (List.mem_cons_of_mem _ hd2) hs2 he2)

/-- C9: in `score_results`, a row whose `{metric}_score` cell holds the
missing value NaN (as arises when the metric contributed nothing for
this row while the column exists because of another row) is assigned
per-metric status "green", because NaN compares false with both the low
and the high threshold inside `score_to_status` — so a metric that
errored for a row is classified green, not red. (The metric may not be
toxicity, whose status column is rederived from the boolean flag, nor
"overall", whose status column is the overall verdict; no second score
column may map to the same metric name.) -/
theorem nan_score_status_green (s : TrafficLightScorer) (r : Row) (c : String)
    (hnd : (Row.cols r).Nodup)
    (hc : strEndsWith c "_score" = true)
    (hv : Row.get r c = some (Value.num .nan))
    (huniq : ∀ d ∈ Row.cols r, strEndsWith d "_score" = true →
        pyReplace d "_score" "" = pyReplace c "_score" "" → d = c)
    (hnt : pyReplace c "_score" "" ≠ "toxicity")
    (hno : pyReplace c "_score" "" ≠ "overall") :
    Row.get (score_results_row s r) (pyReplace c "_score" "" ++ "_status")
      = some (.str "green") := by
  have hcm : c ∈ Row.cols r := Row.mem_cols_of_get r c _ hv
  have hovl : ("overall" : String) ++ "_status" = "overall_status" := by decide
  have htxl : ("toxicity" : String) ++ "_status" = "toxicity_status" := by decide
  have hT1 : pyReplace c "_score" "" ++ "_status" ≠ "overall_status" := by
    intro hh
    rw [← hovl] at hh
    exact hno (statusTarget_inj _ _ hh)
  have hT2 : pyReplace c "_score" "" ++ "_status" ≠ "toxicity_status" := by
    intro hh
    rw [← htxl] at hh
    exact hnt (statusTarget_inj _ _ hh)
  simp only [score_results_row]
  rw [Row.get_setCol_ne _ _ _ _ hT1, toxPass_get_ne _ _ hT2]
  exact passCols_assign_nan s (Row.cols r) r c hc hv hcm hnd huniq hnt

/-- Witness for the C9 theorem: a single-column row whose correctness
score is NaN is given a green correctness status. -/
theorem nan_score_status_green_witness :
    Row.get (score_results_row defaultScorer [("correctness_score", Value.num .nan)])
        (pyReplace "correctness_score" "_score" "" ++ "_status")
      = some (.str "green") :=
  nan_score_status_green defaultScorer [("correctness_score", Value.num .nan)]
    "correctness_score" (by decide) (by decide) (by decide) (by decide) (by decide)
    (by decide)

/-! ### Stability of the row-status combination -/

theorem cos0_unfold (s : TrafficLightScorer) (S : List Value) :
    compute_overall_status s S 0 0
      = if S = [] then "red"
        else if Value.str "red" ∈ S then "red"
        else if Value.str "yellow" ∈ S then "yellow" else "green" := by
  unfold compute_overall_status
  simp

theorem mem_statusValues_iff (ρ : Row) (x : Value) :
    x ∈ statusValues ρ ↔
      ∃ c, strEndsWith c "_status" = true ∧ Row.get ρ c = some x := by
  unfold statusValues
  rw [List.mem_filterMap]
  constructor
  · rintro ⟨c, hc, hget⟩
    rw [List.mem_filter] at hc
    exact ⟨c, hc.2, hget⟩
  · rintro ⟨c, hcs, hget⟩
    refine ⟨c, ?_, hget⟩
    rw [List.mem_filter]
    exact ⟨Row.mem_cols_of_get ρ c x hget, hcs⟩

theorem statusValues_eq_nil_iff (ρ : Row) :
    statusValues ρ = [] ↔
      ∀ c, strEndsWith c "_status" = true → Row.get ρ c = none := by
  constructor
  · intro h c hc
    cases hget : Row.get ρ c with
    | none => rfl
    | some v =>
      have hv : v ∈ statusValues ρ := (mem_statusValues_iff ρ v).mpr ⟨c, hc, hget⟩
      rw [h] at hv
      cases hv
  · intro h
    cases hS : statusValues ρ with
    | nil => rfl
    | cons v S =>
      have hv : v ∈ statusValues ρ := by rw [hS]; exact List.mem_cons_self _ _
      obtain ⟨c, hc, hget⟩ := (mem_statusValues_iff ρ v).mp hv
      rw [h c hc] at hget
      cases hget

theorem cos0_ext (s : TrafficLightScorer) (S1 S2 : List Value)
    (hnil : S1 = [] ↔ S2 = [])
    (hred : Value.str "red" ∈ S1 ↔ Value.str "red" ∈ S2)
    (hyel : Value.str "yellow" ∈ S1 ↔ Value.str "yellow" ∈ S2) :
    compute_overall_status s S1 0 0 = compute_overall_status s S2 0 0 := by
  rw [cos0_unfold, cos0_unfold]
  split_ifs <;> first | rfl | (exfalso; tauto)

theorem compute_row_status_ext (s : TrafficLightScorer) (ρ σ : Row)
    (h : ∀ c, Row.get σ c = Row.get ρ c) :
    compute_row_status s σ = compute_row_status s ρ := by
  have hnil : statusValues σ = [] ↔ statusValues ρ = [] := by
    rw [statusValues_eq_nil_iff, statusValues_eq_nil_iff]
    constructor <;> intro hh c hc
    · rw [← h c]
      exact hh c hc
    · rw [h c]
      exact hh c hc
  have hmem : ∀ x, x ∈ statusValues σ ↔ x ∈ statusValues ρ := by
    intro x
    rw [mem_statusValues_iff, mem_statusValues_iff]
    constructor <;> rintro ⟨c, hc, hg⟩
    · refine ⟨c, hc, ?_⟩
      rw [← h c]
      exact hg
    · refine ⟨c, hc, ?_⟩
      rw [h c]
      exact hg
  have hcos : compute_overall_status s (statusValues σ) 0 0
      = compute_overall_status s (statusValues ρ) 0 0 :=
    cos0_ext s _ _ hnil (hmem _) (hmem _)
  unfold compute_row_status
  rw [h "toxicity_is_toxic"]
  cases Row.get ρ "toxicity_is_toxic" with
  | none => exact hcos
  | some v => by_cases hv : v.truthy <;> simp [hv, hcos]

theorem cos0_stable (s : TrafficLightScorer) (ρ σ : Row)
    (hne : ∀ c, c ≠ "overall_status" → Row.get σ c = Row.get ρ c)
    (hov : Row.get σ "overall_status"
        = some (.str (compute_overall_status s (statusValues ρ) 0 0))) :
    compute_overall_status s (statusValues σ) 0 0
      = compute_overall_status s (statusValues ρ) 0 0 := by
  have hends : strEndsWith "overall_status" "_status" = true := by decide
  have hmemσ : ∀ x, x ∈ statusValues σ ↔
      (x = .str (compute_overall_status s (statusValues ρ) 0 0)
        ∨ ∃ c, c ≠ "overall_status" ∧ strEndsWith c "_status" = true
            ∧ Row.get ρ c = some x) := by
    intro x
    rw [mem_statusValues_iff]
    constructor
    · rintro ⟨c, hc, hg⟩
      by_cases hco : c = "overall_status"
      · subst hco
        rw [hov] at hg
        exact Or.inl (Option.some.inj hg).symm
      · refine Or.inr ⟨c, hco, hc, ?_⟩
        rw [← hne c hco]
        exact hg
    · rintro (rfl | ⟨c, hco, hc, hg⟩)
      · exact ⟨"overall_status", hends, hov⟩
      · refine ⟨c, hc, ?_⟩
        rw [hne c hco]
        exact hg
  have hovmem : Value.str (compute_overall_status s (statusValues ρ) 0 0)
      ∈ statusValues σ := (hmemσ _).mpr (Or.inl rfl)
  have hσne : statusValues σ ≠ [] := List.ne_nil_of_mem hovmem
  by_cases hnρ : statusValues ρ = []
  · have hoveq : compute_overall_status s (statusValues ρ) 0 0 = "red" := by
      rw [cos0_unfold, if_pos hnρ]
    have hrσ : Value.str "red" ∈ statusValues σ := by
      rw [← hoveq]
      exact hovmem
    rw [cos0_unfold s (statusValues σ), if_neg hσne, if_pos hrσ, hoveq]
  · by_cases hrρ : Value.str "red" ∈ statusValues ρ
    · have hoveq : compute_overall_status s (statusValues ρ) 0 0 = "red" := by
        rw [cos0_unfold, if_neg hnρ, if_pos hrρ]
      have hrσ : Value.str "red" ∈ statusValues σ := by
        rw [← hoveq]
        exact hovmem
      rw [cos0_unfold s (statusValues σ), if_neg hσne, if_pos hrσ, hoveq]
    · by_cases hyρ : Value.str "yellow" ∈ statusValues ρ
      · have hoveq : compute_overall_status s (statusValues ρ) 0 0 = "yellow" := by
          rw [cos0_unfold, if_neg hnρ, if_neg hrρ, if_pos hyρ]
        have hrσ : Value.str "red" ∉ statusValues σ := by
          intro hmem
          rcases (hmemσ _).mp hmem with heq | ⟨c, hco, hc, hg⟩
          · rw [hoveq] at heq
            exact absurd heq (by decide)
          · exact hrρ ((mem_statusValues_iff ρ _).mpr ⟨c, hc, hg⟩)
        have hyσ : Value.str "yellow" ∈ statusValues σ := by
          have h2 := hovmem
          rw [hoveq] at h2
          exact h2
        rw [cos0_unfold s (statusValues σ), if_neg hσne, if_neg hrσ, if_pos hyσ, hoveq]
      · have hoveq : compute_overall_status s (statusValues ρ) 0 0 = "green" := by
          rw [cos0_unfold, if_neg hnρ, if_neg hrρ, if_neg hyρ]
        have hrσ : Value.str "red" ∉ statusValues σ := by
          intro hmem
          rcases (hmemσ _).mp hmem with heq | ⟨c, hco, hc, hg⟩
          · rw [hoveq] at heq
            exact absurd heq (by decide)
          · exact hrρ ((mem_statusValues_iff ρ _).mpr ⟨c, hc, hg⟩)
        have hyσ : Value.str "yellow" ∉ statusValues σ := by
          intro hmem
          rcases (hmemσ _).mp hmem with heq | ⟨c, hco, hc, hg⟩
          · rw [hoveq] at heq
            exact absurd heq (by decide)
          · exact hyρ ((mem_statusValues_iff ρ _).mpr ⟨c, hc, hg⟩)
        rw [cos0_unfold s (statusValues σ), if_neg hσne, if_neg hrσ, if_neg hyσ, hoveq]

theorem crs_stable (s : TrafficLightScorer) (ρ σ : Row)
    (hne : ∀ c, c ≠ "overall_status" → Row.get σ c = Row.get ρ c)
    (hov : Row.get σ "overall_status"
        = some (.str (compute_row_status s ρ))) :
    compute_row_status s σ = compute_row_status s ρ := by
  have htox : Row.get σ "toxicity_is_toxic" = Row.get ρ "toxicity_is_toxic" :=
    hne _ (by decide)
  cases hvt : Row.get ρ "toxicity_is_toxic" with
  | some v =>
    by_cases hvb : v.truthy
    · unfold compute_row_status
      rw [htox, hvt]
      simp [hvb]
    · have hov2 : Row.get σ "overall_status"
          = some (.str (compute_overall_status s (statusValues ρ) 0 0)) := by
        rw [hov]
        unfold compute_row_status
        rw [hvt]
        simp [hvb]
      unfold compute_row_status
      rw [htox, hvt]
      simp only [hvb, if_false]
      simp only [Bool.false_eq_true, if_false]
      exact cos0_stable s ρ σ hne hov2
  | none =>
    have hov2 : Row.get σ "overall_status"
        = some (.str (compute_overall_status s (statusValues ρ) 0 0)) := by
      rw [hov]
      unfold compute_row_status
      rw [hvt]
    unfold compute_row_status
    rw [htox, hvt]
    exact cos0_stable s ρ σ hne hov2

theorem passCols_dichotomy (s : TrafficLightScorer) (cs : List String) (ρ σ : Row)
    (hsc : ∀ d, strEndsWith d "_score" = true → Row.get ρ d = Row.get σ d)
    (c : String) :
    Row.get (passCols s cs ρ) c = Row.get (passCols s cs σ) c
    ∨ (Row.get (passCols s cs ρ) c = Row.get ρ c
        ∧ Row.get (passCols s cs σ) c = Row.get σ c) := by
  induction cs generalizing ρ σ with
  | nil => exact Or.inr ⟨rfl, rfl⟩
  | cons col cs ih =>
    have hρ : passCols s (col :: cs) ρ = passCols s cs (scoreStep s ρ col) := by
      rw [passCols, passCols, List.foldl_cons]
    have hσ : passCols s (col :: cs) σ = passCols s cs (scoreStep s σ col) := by
      rw [passCols, passCols, List.foldl_cons]
    rw [hρ, hσ]
    have hsc2 : ∀ d, strEndsWith d "_score" = true →
        Row.get (scoreStep s ρ col) d = Row.get (scoreStep s σ col) d := by
      intro d hd
      rw [scoreStep_get_not_status s ρ col d (strEndsWith_score_not_status d hd),
        scoreStep_get_not_status s σ col d (strEndsWith_score_not_status d hd)]
      exact hsc d hd
    rcases ih (scoreStep s ρ col) (scoreStep s σ col) hsc2 with h | ⟨h1, h2⟩
    · exact Or.inl h
    · by_cases hcol : strEndsWith col "_score" = true
      · cases hget : Row.get ρ col with
        | none =>
          have hgσ : Row.get σ col = none := by
            rw [← hsc col hcol]
            exact hget
          have e1 : scoreStep s ρ col = ρ := by
            unfold scoreStep
            simp [hcol, hget]
          have e2 : scoreStep s σ col = σ := by
            unfold scoreStep
            simp [hcol, hgσ]
          rw [e1] at h1
          rw [e2] at h2
          rw [e1, e2]
          exact Or.inr ⟨h1, h2⟩
        | some v =>
          have hgσ : Row.get σ col = some v := by
            rw [← hsc col hcol]
            exact hget
          by_cases hcT : c = pyReplace col "_score" "" ++ "_status"
          · subst hcT
            have e1 : Row.get (scoreStep s ρ col)
                  (pyReplace col "_score" "" ++ "_status")
                = some (.str (score_to_status s v.toPFloat
                    (pyReplace col "_score" ""))) := by
              unfold scoreStep
              simp only [hcol, if_true, hget]
              exact Row.get_setCol_self _ _ _
            have e2 : Row.get (scoreStep s σ col)
                  (pyReplace col "_score" "" ++ "_status")
                = some (.str (score_to_status s v.toPFloat
                    (pyReplace col "_score" ""))) := by
              unfold scoreStep
              simp only [hcol, if_true, hgσ]
              exact Row.get_setCol_self _ _ _
            refine Or.inl ?_
            rw [h1, h2, e1, e2]
          · have e1 : Row.get (scoreStep s ρ col) c = Row.get ρ c := by
              unfold scoreStep
              simp only [hcol, if_true, hget]
              exact Row.get_setCol_ne _ _ _ _ hcT
            have e2 : Row.get (scoreStep s σ col) c = Row.get σ c := by
              unfold scoreStep
              simp only [hcol, if_true, hgσ]
              exact Row.get_setCol_ne _ _ _ _ hcT
            exact Or.inr ⟨h1.trans e1, h2.trans e2⟩
      · simp only [Bool.not_eq_true] at hcol
        have e1 : scoreStep s ρ col = ρ := by
          unfold scoreStep
          simp [hcol]
        have e2 : scoreStep s σ col = σ := by
          unfold scoreStep
          simp [hcol]
        rw [e1] at h1
        rw [e2] at h2
        rw [e1, e2]
        exact Or.inr ⟨h1, h2⟩

theorem row_idem (s : TrafficLightScorer) (r : Row) (c : String) :
    Row.get (score_results_row s (score_results_row s r)) c
      = Row.get (score_results_row s r) c := by
  obtain ⟨r1, hr1⟩ : ∃ x, x = passCols s (Row.cols r) r := ⟨_, rfl⟩
  obtain ⟨r2, hr2⟩ : ∃ x, x = toxPass r1 := ⟨_, rfl⟩
  obtain ⟨ov, hovd⟩ : ∃ x, x = compute_row_status s r2 := ⟨_, rfl⟩
  obtain ⟨r3, hr3⟩ : ∃ x, x = Row.setCol r2 "overall_status" (.str ov) := ⟨_, rfl⟩
  have hsrr : score_results_row s r = r3 := by
    rw [hr3, hovd, hr2, hr1]
    rfl
  rw [hsrr]
  obtain ⟨B, hBd⟩ : ∃ x, x = passCols s (Row.cols r) r3 := ⟨_, rfl⟩
  obtain ⟨ext, hext, hexts⟩ := srr_cols s r
  rw [hsrr] at hext
  have hpass3 : passCols s (Row.cols r3) r3 = B := by
    rw [hext]
    have h1 : passCols s (Row.cols r ++ ext) r3
        = passCols s ext (passCols s (Row.cols r) r3) := by
      rw [passCols, passCols, passCols, List.foldl_append]
    rw [h1, ← hBd]
    exact passCols_id_of_no_score s ext B
      (fun d hd => strEndsWith_status_not_score d (hexts d hd))
  have hsrr3 : score_results_row s r3
      = Row.setCol (toxPass B) "overall_status"
          (.str (compute_row_status s (toxPass B))) := by
    have h0 : score_results_row s r3
        = Row.setCol (toxPass (passCols s (Row.cols r3) r3)) "overall_status"
            (.str (compute_row_status s (toxPass (passCols s (Row.cols r3) r3)))) := rfl
    rw [h0, hpass3]
  rw [hsrr3]
  have hsc : ∀ d, strEndsWith d "_score" = true → Row.get r d = Row.get r3 d := by
    intro d hd
    rw [← hsrr]
    exact (srr_get_not_status s r d (strEndsWith_score_not_status d hd)).symm
  have hdich : ∀ c2, Row.get r1 c2 = Row.get B c2
      ∨ (Row.get r1 c2 = Row.get r c2 ∧ Row.get B c2 = Row.get r3 c2) := by
    intro c2
    rw [hr1, hBd]
    exact passCols_dichotomy s (Row.cols r) r r3 hsc c2
  have htoxr1 : Row.get r1 "toxicity_is_toxic" = Row.get r "toxicity_is_toxic" := by
    rw [hr1]
    exact passCols_get_not_status s _ r _ (by decide)
  have htoxB : Row.get B "toxicity_is_toxic" = Row.get r "toxicity_is_toxic" := by
    rw [hBd]
    rw [passCols_get_not_status s _ r3 _ (by decide), ← hsrr]
    exact srr_get_not_status s r _ (by decide)
  have hr3ne : ∀ c2, c2 ≠ "overall_status" → Row.get r3 c2 = Row.get r2 c2 := by
    intro c2 hc2
    rw [hr3]
    exact Row.get_setCol_ne _ _ _ _ hc2
  have hE4 : ∀ c2, c2 ≠ "overall_status" →
      Row.get (toxPass B) c2 = Row.get r2 c2 := by
    intro c2 hc2
    by_cases hct : c2 = "toxicity_status"
    · subst hct
      cases hgt : Row.get r "toxicity_is_toxic" with
      | some v =>
        have e1 : Row.get (toxPass B) "toxicity_status"
            = some (.str (if v.truthy then "red" else "green")) := by
          unfold toxPass
          rw [htoxB, hgt]
          exact Row.get_setCol_self _ _ _
        have e2 : Row.get r2 "toxicity_status"
            = some (.str (if v.truthy then "red" else "green")) := by
          rw [hr2]
          unfold toxPass
          rw [htoxr1, hgt]
          exact Row.get_setCol_self _ _ _
        rw [e1, e2]
      | none =>
        have e1 : toxPass B = B := by
          unfold toxPass
          rw [htoxB, hgt]
        have e2 : toxPass r1 = r1 := by
          unfold toxPass
          rw [htoxr1, hgt]
        rw [e1, hr2, e2]
        rcases hdich "toxicity_status" with h | ⟨h1, h2⟩
        · exact h.symm
        · calc Row.get B "toxicity_status"
              = Row.get r3 "toxicity_status" := h2
            _ = Row.get r2 "toxicity_status" := hr3ne _ (by decide)
            _ = Row.get r1 "toxicity_status" := by rw [hr2, e2]
    · rw [toxPass_get_ne B c2 hct, hr2, toxPass_get_ne r1 c2 hct]
      rcases hdich c2 with h | ⟨h1, h2⟩
      · exact h.symm
      · calc Row.get B c2 = Row.get r3 c2 := h2
          _ = Row.get r2 c2 := hr3ne c2 hc2
          _ = Row.get r1 c2 := by rw [hr2, toxPass_get_ne r1 c2 hct]
  by_cases hc : c = "overall_status"
  · subst hc
    rw [Row.get_setCol_self]
    have hr3get : Row.get r3 "overall_status" = some (.str ov) := by
      rw [hr3]
      exact Row.get_setCol_self _ _ _
    rw [hr3get]
    have hcrs : compute_row_status s (toxPass B) = ov := by
      rcases hdich "overall_status" with h | ⟨h1, h2⟩
      · have hall : ∀ c2, Row.get (toxPass B) c2 = Row.get r2 c2 := by
          intro c2
          by_cases hc2 : c2 = "overall_status"
          · subst hc2
            rw [toxPass_get_ne B _ (by decide), hr2, toxPass_get_ne r1 _ (by decide)]
            exact h.symm
          · exact hE4 c2 hc2
        rw [hovd]
        exact compute_row_status_ext s r2 (toxPass B) hall
      · have hovB : Row.get (toxPass B) "overall_status" = some (.str ov) := by
          rw [toxPass_get_ne B _ (by decide), h2, hr3get]
        rw [hovd]
        rw [hovd] at hovB
        exact crs_stable s r2 (toxPass B) hE4 hovB
    rw [hcrs]
  · rw [Row.get_setCol_ne _ _ _ _ hc, hE4 c hc]
    exact (hr3ne c hc).symm

/-- C6: `score_results` is idempotent — rescoring a table it already
produced, with unchanged thresholds, reproduces every cell of every row,
in particular identical per-metric status columns and an identical
`overall_status` column, even though on the second pass
`compute_row_status` collects the previously written `overall_status`
column among the row's status fields. (The rows are assumed to have
pairwise-distinct column names and numeric score cells, as pandas tables
scored without error do.) -/
theorem score_results_idempotent (s : TrafficLightScorer) (df : List Row)
    (h : ∀ r ∈ df, (Row.cols r).Nodup ∧ numericScores r = true) :
    List.Forall₂ (fun a b => ∀ c, Row.get a c = Row.get b c)
      (score_results s (score_results s df)) (score_results s df) := by
  induction df with
  | nil => exact List.Forall₂.nil
  | cons r df ih =>
    simp only [score_results, List.map_cons]
    refine List.Forall₂.cons (fun c => row_idem s r c) ?_
    have ih2 := ih (fun r2 hr2 => h r2 (List.mem_cons_of_mem _ hr2))
    simpa only [score_results] using ih2

/-- Witness for the C6 theorem: a one-row table with a quality score and
a toxicity flag is reproduced cell for cell by a second scoring pass. -/
theorem score_results_idempotent_witness :
    List.Forall₂ (fun a b => ∀ c, Row.get a c = Row.get b c)
      (score_results defaultScorer (score_results defaultScorer
        [[("question", Value.str "Q"),
          ("relevancy_score", Value.num (.val (4/5))),
          ("toxicity_is_toxic", Value.bool false)]]))
      (score_results defaultScorer
        [[("question", Value.str "Q"),
          ("relevancy_score", Value.num (.val (4/5))),
          ("toxicity_is_toxic", Value.bool false)]]) :=
  score_results_idempotent defaultScorer
    [[("question", Value.str "Q"),
      ("relevancy_score", Value.num (.val (4/5))),
      ("toxicity_is_toxic", Value.bool false)]] (by decide)

end LLMEval
